import Mathlib

/-!
Verification of the NRF24L01 telemetry link (TX.py / RX.py).

The transmitter samples the WiFi RSSI, writes one `"<index>,<value>"` line
per sample to a durable log file, and on each button trigger re-reads that
file and sends one 8-byte `struct.pack("ii", idx, rssi)` frame per parsed
line.  The receiver drains all pending frames, unpacks each 8-byte frame
with `struct.unpack("ii", buf)` and shows the metric on an OLED display,
keeping an activity LED on for the duration of each drain burst.

This file shallowly embeds those operations: byte strings become `List Nat`
(each element one byte), text lines become `List Char`, Python `int` fields
become Lean `Int` with explicit two's-complement reduction modulo 2^32 at
the packing boundary, and the side effects of each loop body (sends, printed
warnings, display updates, LED writes) become explicit event lists.
-/

/-- One measurement: `sequence_id` is the draw index within a batch,
`metric` the RSSI reading in dBm.  Mirrors the `(idx, rssi)` pair packed by
`TX.py` line 130 and unpacked by `RX.py` line 104. -/
structure TelemetryRecord where
  sequence_id : Int
  metric : Int
deriving DecidableEq, Repr

/-- Two's-complement image of a Python int in an unsigned 32-bit word, as
`struct.pack("i", x)` stores it (the pack raises `OverflowError` outside
the signed 32-bit range; inside it, the stored word is `x mod 2^32`). -/
def toUInt32 (x : Int) : Nat := (x % 4294967296).toNat

/-- The four little-endian bytes of an unsigned 32-bit word. -/
def bytesLE (v : Nat) : List Nat :=
  [v % 256, v / 256 % 256, v / 65536 % 256, v / 16777216 % 256]

/-- The unsigned 32-bit word denoted by four little-endian bytes. -/
def wordLE (b0 b1 b2 b3 : Nat) : Nat :=
  b0 + 256 * b1 + 65536 * b2 + 16777216 * b3

/-- Signed reading of an unsigned 32-bit word (two's complement), as
`struct.unpack("i", _)` interprets it. -/
def toInt32 (v : Nat) : Int :=
  if v < 2147483648 then (v : Int) else (v : Int) - 4294967296

/-- `struct.pack("ii", a, b)`: an 8-byte frame, `a` first then `b`, each a
4-byte two's-complement integer (TX.py line 130). -/
def pack_ii (a b : Int) : List Nat := bytesLE (toUInt32 a) ++ bytesLE (toUInt32 b)

/-- `struct.unpack("ii", buf)`: reads two 4-byte two's-complement integers
from an 8-byte buffer (RX.py line 104); `none` when the buffer is not
exactly 8 bytes. -/
def unpack_ii (buf : List Nat) : Option (Int × Int) :=
  match buf with
  | [a0, a1, a2, a3, b0, b1, b2, b3] =>
      some (toInt32 (wordLE a0 a1 a2 a3), toInt32 (wordLE b0 b1 b2 b3))
  | _ => none

/-- `encode`: the WireFrame of one record, `sequence_id` first then
`metric` (TX.py line 130). -/
def encode (r : TelemetryRecord) : List Nat := pack_ii r.sequence_id r.metric

/-- The codec's error taxonomy (spec §7). -/
inductive DecodeError where
  | SizeMismatch
  | Malformed
deriving DecidableEq, Repr

/-- `decode`: RX.py lines 101-109.  The length guard (`if len(buf) == 8`)
runs first, before any byte is interpreted; a frame of any other size is
rejected as `SizeMismatch`.  A length-8 frame is unpacked; the `Malformed`
branch mirrors the `except` arm around `struct.unpack` and is unreachable
for fixed-width fields. -/
def decode (buf : List Nat) : Except DecodeError TelemetryRecord :=
  if buf.length = 8 then
    match unpack_ii buf with
    | some (i, m) => Except.ok { sequence_id := i, metric := m }
    | none => Except.error DecodeError.Malformed
  else Except.error DecodeError.SizeMismatch

/-- The signal source collaborator: `TX.py` lines 91-94.  `some v` models a
connected WiFi interface returning `wifi.status('rssi') = v`; `none` models
`wifi.isconnected()` being false on that draw. -/
def SignalSource : Type := Nat -> Option Int

/-- The sampling loop of `medir_rssi` (TX.py lines 87-97), generalised over
the draw count `n` (the code fixes `range(10)`; the spec §4.2 makes it
configurable).  Draw `i` uses the live reading when the source is
connected and the sentinel `-100` otherwise; the draw index is the
record's `sequence_id`. -/
def sample (n : Nat) (source : SignalSource) : List TelemetryRecord :=
  (List.range n).map fun i =>
    { sequence_id := Int.ofNat i, metric := (source i).getD (-100) }

/-- `avg_rssi = sum(rssi_values) / len(rssi_values)` (TX.py line 100),
in exact rational arithmetic. -/
def avg_rssi (xs : List Int) : Rat := ((xs.sum : Int) : Rat) / (xs.length : Rat)

/-- The radicand of TX.py line 102: sum of squared deviations divided by
`len(rssi_values)` — the population variance, denominator `n`, not `n-1`. -/
def var_pop (xs : List Int) : Rat :=
  ((xs.map fun x => ((x : Rat) - avg_rssi xs) ^ 2).sum) / (xs.length : Rat)

/-- `std_dev_rssi = math.sqrt(...)` (TX.py line 102), over the exact
population variance. -/
noncomputable def std_dev_rssi (xs : List Int) : Real := Real.sqrt ((var_pop xs : Rat) : Real)

/-- The decimal digit characters used by Python's `f"{i},{val}"`
formatting of an integer. -/
def digitChar : Nat -> Char
  | 0 => '0' | 1 => '1' | 2 => '2' | 3 => '3' | 4 => '4'
  | 5 => '5' | 6 => '6' | 7 => '7' | 8 => '8' | _ => '9'

/-- Little-endian digit characters of `n`, with explicit fuel so the
definition reduces structurally (`fuel >= n` suffices). -/
def revDigitsAux (fuel n : Nat) : List Char :=
  match fuel, n with
  | _, 0 => []
  | 0, _ + 1 => []
  | f + 1, m + 1 => digitChar ((m + 1) % 10) :: revDigitsAux f ((m + 1) / 10)

/-- The decimal representation of a natural number, as Python's string
formatting produces it. -/
def natToChars (n : Nat) : List Char :=
  if n = 0 then ['0'] else (revDigitsAux n n).reverse

/-- The decimal representation of a Python int, `-` prefix for negatives,
as `f"{val}"` produces it. -/
def intToChars (v : Int) : List Char :=
  if v < 0 then '-' :: natToChars v.natAbs else natToChars v.toNat

/-- One line `f"{i},{val}"` of the durable log (TX.py line 110), without
its trailing newline. -/
def mkLine (i : Nat) (v : Int) : List Char := natToChars i ++ ',' :: intToChars v

/-- The lines `medir_rssi` writes for one batch of readings: line `i` is
`"<i>,<reading i>"` (TX.py lines 108-110). -/
def medirRssiLines (readings : List Int) : List (List Char) :=
  readings.enum.map fun p => mkLine p.1 p.2

/-- A file-open mode, as in Python's `open(path, mode)`. -/
inductive FileMode where
  | write
  | appendMode
deriving DecidableEq, Repr

/-- Writing `new` lines to a file holding `old` lines: mode `"w"`
truncates and replaces, mode `"a"` would append. -/
def writeLines (mode : FileMode) (old new : List (List Char)) : List (List Char) :=
  match mode with
  | FileMode.write => new
  | FileMode.appendMode => old ++ new

/-- The durable-log effect of one `medir_rssi()` call (TX.py line 108):
the file is opened with mode `"w"`, so the batch lines replace whatever
the file held before. -/
def medirRssiFile (old : List (List Char)) (readings : List Int) : List (List Char) :=
  writeLines FileMode.write old (medirRssiLines readings)

/-- The value of a big-endian list of decimal digit characters, as the
digit-by-digit accumulation inside Python's `int(s)` computes it. -/
def digitsVal (cs : List Char) : Nat :=
  cs.foldl (fun a c => a * 10 + (c.toNat - 48)) 0

/-- The model of Python's `int(s)` on the comma-separated fields of a log
line: an optional sign followed by at least one decimal digit (whitespace
and underscore forms, which the log writer never emits, are outside the
model).  `none` models the `ValueError` raised by `int(...)` at
TX.py lines 127-128. -/
def pyIntParse (cs : List Char) : Option Int :=
  match cs with
  | [] => none
  | c :: rest =>
    if c = '-' then
      if rest = [] then none
      else if rest.all Char.isDigit then some (-(digitsVal rest : Int)) else none
    else if c = '+' then
      if rest = [] then none
      else if rest.all Char.isDigit then some ((digitsVal rest : Int)) else none
    else if (c :: rest).all Char.isDigit then some ((digitsVal (c :: rest) : Int))
    else none

/-- Python's `str.split(",")` on a (stripped) log line: empty fields are
kept, so `""` gives one empty field and `","` gives two (TX.py line 124). -/
def splitOnComma : List Char -> List (List Char)
  | [] => [[]]
  | c :: rest =>
    match splitOnComma rest with
    | [] => [[c]]
    | f :: fs => if c = ',' then [] :: f :: fs else (c :: f) :: fs

/-- The observable effects of the transmitter's per-line loop body:
`sent` is `nrf.send(payload)` (TX.py line 132), `warned` is the
`"Línea malformada"` diagnostic printed by the `except ValueError` arm
(TX.py line 137). -/
inductive TxEvent where
  | sent (frame : List Nat)
  | warned (line : List Char)
deriving DecidableEq, Repr

/-- One iteration of the `for line in file` loop of `transmitir_archivo`
(TX.py lines 122-137): split the stripped line on `","`; with exactly two
fields, parse both as ints and send the packed frame, or print the
malformed-line warning when a parse raises `ValueError`; with any other
field count the `if len(partes) == 2` guard fails and the line is skipped
with no output at all. -/
def processLine (line : List Char) : List TxEvent :=
  match splitOnComma line with
  | [a, b] =>
    match pyIntParse a, pyIntParse b with
    | some idx, some rssi => [TxEvent.sent (pack_ii idx rssi)]
    | some _, none => [TxEvent.warned line]
    | none, _ => [TxEvent.warned line]
  | _ => []

/-- The whole transmission pass of `transmitir_archivo` over the durable
log's lines (TX.py lines 120-138): each line is processed independently
and in order; no line aborts the pass. -/
def transmitir_archivo (lines : List (List Char)) : List TxEvent :=
  lines.flatMap processLine

/-- Count of frames handed to the radio during a transmission pass. -/
def isSent : TxEvent -> Bool
  | TxEvent.sent _ => true
  | _ => false

/-- Number of `nrf.send` calls in an event list. -/
def countSent (evs : List TxEvent) : Nat := (evs.filter isSent).length

/-- The observable effects of the receiver loop body (RX.py lines 94-115):
LED writes, `nrf.recv()` calls, display updates (`mostrar_en_oled` plus the
`"Recibido RSSI"` print), and the `"Error de decodificación"` diagnostic. -/
inductive RxEvent where
  | ledOn
  | ledOff
  | recvd (buf : List Nat)
  | shown (rssi : Int)
  | decodeFailMsg
deriving DecidableEq, Repr

/-- Handling of one received buffer (RX.py lines 101-109): a length-8
buffer is unpacked, its metric printed and shown on the OLED (the display
state is overwritten — last-write-wins); an unpack failure prints the
decode diagnostic; a buffer of any other length is dropped with no effect
and no output. -/
def processFrame (buf : List Nat) (disp : Option Int) : Option Int × List RxEvent :=
  if buf.length = 8 then
    match unpack_ii buf with
    | some (_, rssi) => (some rssi, [RxEvent.shown rssi])
    | none => (disp, [RxEvent.decodeFailMsg])
  else (disp, [])

/-- The inner `while nrf.any()` drain of RX.py lines 99-110: receive and
handle buffers until none is pending, threading the display state. -/
def drainFrames : List (List Nat) -> Option Int -> Option Int × List RxEvent
  | [], disp => (disp, [])
  | buf :: rest, disp =>
    let pr := processFrame buf disp
    let dr := drainFrames rest pr.1
    (dr.1, (RxEvent.recvd buf :: pr.2) ++ dr.2)

/-- One body of the outer `while True` loop (RX.py lines 94-113): when the
transport reports pending frames, turn the LED on, drain to exhaustion,
and turn the LED off only after the burst is empty; when nothing is
pending, do nothing. -/
def drainStep (queue : List (List Nat)) (disp : Option Int) : Option Int × List RxEvent :=
  match queue with
  | [] => (disp, [])
  | _ :: _ =>
    let dr := drainFrames queue disp
    (dr.1, RxEvent.ledOn :: dr.2 ++ [RxEvent.ledOff])

/-- Recognises an `nrf.recv()` event. -/
def isRecvd : RxEvent -> Bool
  | RxEvent.recvd _ => true
  | _ => false

/-- Number of frames consumed from the transport in an event list. -/
def countRecvd (evs : List RxEvent) : Nat := (evs.filter isRecvd).length

/-- Recognises a display update event. -/
def isShown : RxEvent -> Bool
  | RxEvent.shown _ => true
  | _ => false

theorem wordLE_bytesLE (v : Nat) (h : v < 4294967296) :
    wordLE (v % 256) (v / 256 % 256) (v / 65536 % 256) (v / 16777216 % 256) = v := by
  unfold wordLE
  omega

theorem toUInt32_lt (x : Int) : toUInt32 x < 4294967296 := by
  unfold toUInt32
  omega

theorem toInt32_toUInt32 (x : Int) (h1 : -2147483648 ≤ x) (h2 : x < 2147483648) :
    toInt32 (toUInt32 x) = x := by
  unfold toInt32 toUInt32
  split <;> omega

/-- C1: for every TelemetryRecord whose two fields fit in a signed 32-bit
integer, unpacking (`struct.unpack("ii", _)`, RX.py line 104) the 8-byte
frame produced by packing it (`struct.pack("ii", idx, rssi)`, TX.py line
130) returns exactly the original record, `sequence_id` first and `metric`
second. -/
theorem decode_encode_roundtrip (r : TelemetryRecord)
    (h1 : -2147483648 ≤ r.sequence_id ∧ r.sequence_id < 2147483648)
    (h2 : -2147483648 ≤ r.metric ∧ r.metric < 2147483648) :
    decode (encode r) = Except.ok r := by
  show decode (pack_ii r.sequence_id r.metric) = Except.ok r
  unfold decode pack_ii bytesLE unpack_ii
  simp only [List.cons_append, List.nil_append, List.length_cons, List.length_nil]
  norm_num
  rw [wordLE_bytesLE _ (toUInt32_lt r.sequence_id), wordLE_bytesLE _ (toUInt32_lt r.metric),
    toInt32_toUInt32 _ h1.1 h1.2, toInt32_toUInt32 _ h2.1 h2.2]

theorem decode_encode_roundtrip_witness :
    ((-2147483648 ≤ (3 : Int) ∧ (3 : Int) < 2147483648) ∧
      (-2147483648 ≤ (-50 : Int) ∧ (-50 : Int) < 2147483648)) ∧
    decode (encode ⟨3, -50⟩) = Except.ok ⟨3, -50⟩ :=
  ⟨⟨by norm_num, by norm_num⟩,
    decode_encode_roundtrip ⟨3, -50⟩ (by norm_num) (by norm_num)⟩

/-- C3: a buffer of any length other than 8 — in particular lengths 0, 1,
7, 9 and 16 — is rejected as a size mismatch by the guard at RX.py line
101, whatever its bytes hold: the guard short-circuits before any byte is
interpreted as an integer. -/
theorem decode_size_guard (b : List Nat) (h : b.length ≠ 8) :
    decode b = Except.error DecodeError.SizeMismatch := by
  unfold decode
  simp [h]

theorem decode_size_guard_witness :
    (List.replicate 16 (0 : Nat)).length ≠ 8 ∧
    decode (List.replicate 16 (0 : Nat)) = Except.error DecodeError.SizeMismatch :=
  ⟨by decide, decode_size_guard _ (by decide)⟩

theorem digitChar_toNat : ∀ d < 10, (digitChar d).toNat = 48 + d := by decide

theorem digitChar_isDigit : ∀ d < 10, (digitChar d).isDigit = true := by decide

theorem revDigitsAux_all_digit (fuel : Nat) :
    ∀ n, (revDigitsAux fuel n).all Char.isDigit = true := by
  induction fuel with
  | zero =>
    intro n
    cases n <;> rfl
  | succ f ih =>
    intro n
    cases n with
    | zero => rfl
    | succ m =>
      rw [revDigitsAux, List.all_cons, ih, Bool.and_true]
      exact digitChar_isDigit _ (Nat.mod_lt _ (by norm_num))

theorem digitsVal_append_one (cs : List Char) (c : Char) :
    digitsVal (cs ++ [c]) = digitsVal cs * 10 + (c.toNat - 48) := by
  unfold digitsVal
  rw [List.foldl_append]
  rfl

theorem digitsVal_revDigitsAux (fuel : Nat) :
    ∀ n, n ≤ fuel → digitsVal ((revDigitsAux fuel n).reverse) = n := by
  induction fuel with
  | zero =>
    intro n hn
    interval_cases n
    rfl
  | succ f ih =>
    intro n hn
    cases n with
    | zero => rfl
    | succ m =>
      rw [revDigitsAux, List.reverse_cons, digitsVal_append_one,
        ih ((m + 1) / 10) (by omega),
        digitChar_toNat _ (Nat.mod_lt _ (by norm_num))]
      omega

theorem natToChars_all_digit (n : Nat) : (natToChars n).all Char.isDigit = true := by
  unfold natToChars
  split
  · rfl
  · rw [List.all_reverse]
    exact revDigitsAux_all_digit n n

theorem natToChars_ne_nil (n : Nat) : natToChars n ≠ [] := by
  unfold natToChars
  split
  · simp
  · next h =>
    cases n with
    | zero => exact absurd rfl h
    | succ m =>
      rw [revDigitsAux]
      simp

theorem digitsVal_natToChars (n : Nat) : digitsVal (natToChars n) = n := by
  unfold natToChars
  split
  · next h => rw [h]; rfl
  · exact digitsVal_revDigitsAux n n (Nat.le_refl n)

theorem pyIntParse_digits (cs : List Char) (h1 : cs ≠ [])
    (h2 : cs.all Char.isDigit = true) :
    pyIntParse cs = some (digitsVal cs : Int) := by
  match cs with
  | c :: rest =>
    have hc : c.isDigit = true := by
      rw [List.all_cons] at h2
      exact (Bool.and_eq_true_iff.mp h2).1
    have hminus : ¬(c = '-') := by
      intro h
      rw [h] at hc
      exact absurd hc (by decide)
    have hplus : ¬(c = '+') := by
      intro h
      rw [h] at hc
      exact absurd hc (by decide)
    rw [pyIntParse]
    simp only [if_neg hminus, if_neg hplus, h2, if_true]

theorem pyIntParse_natToChars (n : Nat) : pyIntParse (natToChars n) = some (n : Int) := by
  rw [pyIntParse_digits _ (natToChars_ne_nil n) (natToChars_all_digit n),
    digitsVal_natToChars]

theorem pyIntParse_intToChars (v : Int) : pyIntParse (intToChars v) = some v := by
  unfold intToChars
  split
  · next hv =>
    rw [pyIntParse]
    simp only [if_pos rfl, if_neg (natToChars_ne_nil v.natAbs), natToChars_all_digit,
      if_true, digitsVal_natToChars]
    congr 1
    omega
  · next hv =>
    rw [pyIntParse_natToChars]
    congr 1
    omega

theorem splitOnComma_ne_nil (cs : List Char) : splitOnComma cs ≠ [] := by
  cases cs with
  | nil => simp [splitOnComma]
  | cons c rest =>
    rw [splitOnComma]
    cases splitOnComma rest with
    | nil => simp
    | cons f fs =>
      by_cases hc : c = ','
      · simp [hc]
      · simp [hc]

theorem splitOnComma_no_comma (a : List Char) (h : ',' ∉ a) : splitOnComma a = [a] := by
  induction a with
  | nil => rfl
  | cons c rest ih =>
    have hc : ¬(c = ',') := fun hcc => h (hcc ▸ List.mem_cons_self c rest)
    have hrest : ',' ∉ rest := fun hm => h (List.mem_cons_of_mem c hm)
    rw [splitOnComma, ih hrest]
    simp [hc]

theorem splitOnComma_append (a b : List Char) (h : ',' ∉ a) :
    splitOnComma (a ++ ',' :: b) = a :: splitOnComma b := by
  induction a with
  | nil =>
    rw [List.nil_append, splitOnComma]
    cases hb : splitOnComma b with
    | nil => exact absurd hb (splitOnComma_ne_nil b)
    | cons f fs => simp
  | cons c rest ih =>
    have hc : ¬(c = ',') := fun hcc => h (hcc ▸ List.mem_cons_self c rest)
    have hrest : ',' ∉ rest := fun hm => h (List.mem_cons_of_mem c hm)
    rw [List.cons_append, splitOnComma, ih hrest]
    simp [hc]

theorem comma_not_mem_of_all_digit (cs : List Char) (h : cs.all Char.isDigit = true) :
    ',' ∉ cs := by
  intro hm
  have := List.all_eq_true.mp h ',' hm
  exact absurd this (by decide)

theorem comma_not_mem_natToChars (n : Nat) : ',' ∉ natToChars n :=
  comma_not_mem_of_all_digit _ (natToChars_all_digit n)

theorem comma_not_mem_intToChars (v : Int) : ',' ∉ intToChars v := by
  unfold intToChars
  split
  · intro hm
    rcases List.mem_cons.mp hm with h | h
    · exact absurd h (by decide)
    · exact comma_not_mem_natToChars _ h
  · exact comma_not_mem_natToChars _

theorem splitOnComma_mkLine (i : Nat) (v : Int) :
    splitOnComma (mkLine i v) = [natToChars i, intToChars v] := by
  unfold mkLine
  rw [splitOnComma_append _ _ (comma_not_mem_natToChars i),
    splitOnComma_no_comma _ (comma_not_mem_intToChars v)]

theorem processLine_mkLine (i : Nat) (v : Int) :
    processLine (mkLine i v) = [TxEvent.sent (pack_ii (i : Int) v)] := by
  unfold processLine
  rw [splitOnComma_mkLine]
  simp only [pyIntParse_natToChars, pyIntParse_intToChars]

theorem transmitir_mkLines (ps : List (Nat × Int)) :
    transmitir_archivo (ps.map fun p => mkLine p.1 p.2)
      = ps.map fun p => TxEvent.sent (pack_ii (p.1 : Int) p.2) := by
  induction ps with
  | nil => rfl
  | cons p ps ih =>
    rw [List.map_cons, List.map_cons, transmitir_archivo, List.flatMap_cons,
      processLine_mkLine]
    rw [transmitir_archivo] at ih
    rw [ih]
    rfl

theorem transmitir_medirRssiLines (readings : List Int) :
    transmitir_archivo (medirRssiLines readings)
      = readings.enum.map fun p => TxEvent.sent (pack_ii (p.1 : Int) p.2) := by
  unfold medirRssiLines
  exact transmitir_mkLines readings.enum

/-- C10: each `medir_rssi()` opens the durable log with mode `"w"`
(TX.py line 108), so after every completed trigger cycle the file holds
exactly the lines `"i,metric_i"` of the batch just sampled, indexed from
0, whatever the file held before; the transmission pass that follows sends
exactly one frame per batch record — `n` frames for an `n`-record batch —
regardless of how many earlier triggers occurred. -/
theorem log_replaced_each_cycle (prev : List (List Char)) (readings : List Int) :
    medirRssiFile prev readings = readings.enum.map (fun p => mkLine p.1 p.2) ∧
    transmitir_archivo (medirRssiFile prev readings)
      = readings.enum.map (fun p => TxEvent.sent (pack_ii (p.1 : Int) p.2)) ∧
    countSent (transmitir_archivo (medirRssiFile prev readings)) = readings.length := by
  refine ⟨rfl, transmitir_medirRssiLines readings, ?_⟩
  show countSent (transmitir_archivo (medirRssiLines readings)) = readings.length
  rw [transmitir_medirRssiLines, countSent, List.filter_map]
  have hall : ∀ p ∈ readings.enum,
      (isSent ∘ fun p : Nat × Int => TxEvent.sent (pack_ii (p.1 : Int) p.2)) p = true :=
    fun p _ => rfl
  rw [List.filter_eq_self.mpr hall, List.length_map, List.enum_length]

/-- C2 counterexample: two consecutive trigger events, each sampling a
2-record batch ([-50, -55] then [-60, -65]).  Because `medir_rssi` opens
the log with mode `"w"` (TX.py line 108), the second pass reads a file
holding only the second batch and sends 2 frames, not the 4 the claim
requires. -/
theorem second_pass_not_cumulative :
    countSent (transmitir_archivo
      (medirRssiFile (medirRssiFile [] [-50, -55]) [-60, -65])) = 2 ∧
    countSent (transmitir_archivo
      (medirRssiFile (medirRssiFile [] [-50, -55]) [-60, -65])) ≠ 4 := by
  exact ⟨rfl, by decide⟩

/-- C2 as amended: after two trigger events each producing a 2-record
batch, the second transmission pass sends exactly 2 frames — one per
record of the most recent batch only — because each sampling pass
replaces the durable log (`open(..., "w")`, TX.py line 108) instead of
appending to it. -/
theorem second_pass_sends_latest_batch (r1 r2 r3 r4 : Int) :
    countSent (transmitir_archivo
      (medirRssiFile (medirRssiFile [] [r1, r2]) [r3, r4])) = 2 :=
  (log_replaced_each_cycle (medirRssiFile [] [r1, r2]) [r3, r4]).2.2

/-- C4: when the signal source reports unavailable on all `n` draws
(`wifi.isconnected()` false each time), the sampling loop of `medir_rssi`
(TX.py lines 87-97) produces exactly `n` records, and the record of draw
`i` carries `sequence_id = i` and the sentinel metric `-100`
(TX.py line 94). -/
theorem sample_all_unavailable (n : Nat) (source : SignalSource)
    (hn : 0 < n) (h : ∀ i, i < n → source i = none) :
    (sample n source).length = n ∧
    ∀ i, i < n →
      (sample n source)[i]? = some { sequence_id := Int.ofNat i, metric := -100 } := by
  constructor
  · rw [sample, List.length_map, List.length_range]
  · intro i hi
    rw [sample, List.getElem?_map, List.getElem?_range hi]
    simp [h i hi]

theorem sample_all_unavailable_witness :
    (0 < 2 ∧ ∀ i, i < 2 → (fun _ => (none : Option Int)) i = none) ∧
    ((sample 2 fun _ => none).length = 2 ∧
      ∀ i, i < 2 →
        (sample 2 fun _ => none)[i]? = some { sequence_id := Int.ofNat i, metric := -100 }) :=
  ⟨⟨by decide, fun i _ => rfl⟩,
    sample_all_unavailable 2 (fun _ => none) (by decide) (fun i _ => rfl)⟩

/-- C5: the statistics of TX.py lines 100-102 are the arithmetic mean and
the population standard deviation (sum of squared deviations divided by
`len(rssi_values)`, i.e. `n`, not `n-1`); on the readings
[-40, -42, -44, -46] the mean is -43.0, the variance radicand is 5, and
the standard deviation is √5. -/
theorem statistics_of_reference_readings :
    avg_rssi [-40, -42, -44, -46] = -43 ∧
    var_pop [-40, -42, -44, -46] = 5 ∧
    std_dev_rssi [-40, -42, -44, -46] = Real.sqrt 5 := by
  have havg : avg_rssi [-40, -42, -44, -46] = -43 := by
    unfold avg_rssi
    norm_num
  have hvar : var_pop [-40, -42, -44, -46] = 5 := by
    unfold var_pop
    rw [havg]
    norm_num
  refine ⟨havg, hvar, ?_⟩
  unfold std_dev_rssi
  rw [hvar]
  norm_num

theorem processLine_two_field_fail (line a b : List Char)
    (hsplit : splitOnComma line = [a, b])
    (hfail : pyIntParse a = none ∨ pyIntParse b = none) :
    processLine line = [TxEvent.warned line] := by
  unfold processLine
  rw [hsplit]
  rcases hfail with ha | hb
  · simp only [ha]
  · simp only [hb]
    cases pyIntParse a <;> rfl

theorem processLine_bad_field_count (line : List Char)
    (h : (splitOnComma line).length ≠ 2) : processLine line = [] := by
  unfold processLine
  rcases hs : splitOnComma line with _ | ⟨x, _ | ⟨y, _ | ⟨z, rest⟩⟩⟩
  · rfl
  · rfl
  · rw [hs] at h
    exact absurd rfl h
  · rfl

/-- C6 counterexample: the line `"1,2,3"` does not parse into exactly two
integer fields, yet the `if len(partes) == 2` guard at TX.py line 125
skips it with no warning at all — `processLine` emits no event, in
particular no `warned` diagnostic, contradicting "skipped with a logged
warning". -/
theorem malformed_line_no_warning :
    processLine ['1', ',', '2', ',', '3'] = [] ∧
    TxEvent.warned ['1', ',', '2', ',', '3'] ∉ processLine ['1', ',', '2', ',', '3'] := by
  exact ⟨rfl, by decide⟩

/-- C6 (amended): a line that splits into exactly two fields of which at
least one fails integer parsing is skipped with the logged warning of
TX.py line 137 — never a fatal abort — and every line after it is still
processed; a line whose field count differs from two is also skipped and
never fatal, but silently (TX.py line 125 has no else branch). -/
theorem malformed_line_skipped (pre post : List (List Char)) (line a b : List Char)
    (hsplit : splitOnComma line = [a, b])
    (hfail : pyIntParse a = none ∨ pyIntParse b = none) :
    processLine line = [TxEvent.warned line] ∧
    transmitir_archivo (pre ++ line :: post)
      = transmitir_archivo pre ++ TxEvent.warned line :: transmitir_archivo post := by
  have hp := processLine_two_field_fail line a b hsplit hfail
  refine ⟨hp, ?_⟩
  rw [transmitir_archivo, List.flatMap_append, List.flatMap_cons, hp]
  rfl

theorem malformed_line_skipped_witness :
    (splitOnComma ['a', 'b', 'c', ',', '5'] = [['a', 'b', 'c'], ['5']] ∧
      pyIntParse ['a', 'b', 'c'] = none) ∧
    (processLine ['a', 'b', 'c', ',', '5'] = [TxEvent.warned ['a', 'b', 'c', ',', '5']] ∧
      transmitir_archivo
          ([['0', ',', '-', '5', '0']] ++ ['a', 'b', 'c', ',', '5'] :: [['1', ',', '-', '5', '5']])
        = transmitir_archivo [['0', ',', '-', '5', '0']]
            ++ TxEvent.warned ['a', 'b', 'c', ',', '5']
              :: transmitir_archivo [['1', ',', '-', '5', '5']]) :=
  ⟨⟨by decide, by decide⟩,
    malformed_line_skipped [['0', ',', '-', '5', '0']] [['1', ',', '-', '5', '5']]
      ['a', 'b', 'c', ',', '5'] ['a', 'b', 'c'] ['5'] (by decide) (Or.inl (by decide))⟩

theorem processFrame_no_led_no_recv (buf : List Nat) (d : Option Int) :
    ∀ e ∈ (processFrame buf d).2,
      isRecvd e = false ∧ e ≠ RxEvent.ledOn ∧ e ≠ RxEvent.ledOff := by
  unfold processFrame
  split
  · cases unpack_ii buf with
    | none => simp [isRecvd]
    | some p =>
      obtain ⟨i, m⟩ := p
      simp [isRecvd]
  · simp

theorem filter_isRecvd_processFrame (buf : List Nat) (d : Option Int) :
    (processFrame buf d).2.filter isRecvd = [] := by
  unfold processFrame
  split
  · cases unpack_ii buf with
    | none => rfl
    | some p =>
      obtain ⟨i, m⟩ := p
      rfl
  · rfl

/-- C7: when the transport reports 3 pending frames and then none, one
body of the receiver's outer loop (RX.py lines 94-113) turns the LED on,
consumes exactly the 3 frames in order inside the inner `while nrf.any()`
drain, and clears the LED only after the third frame is processed: the
event trace is `ledOn`, then the three `recvd` frames each followed by
its handling events (which touch neither the LED nor the transport), then
`ledOff` and nothing else. -/
theorem drain_to_exhaustion (f1 f2 f3 : List Nat) (d : Option Int) :
    ∃ e1 e2 e3 : List RxEvent,
      (drainStep [f1, f2, f3] d).2
        = RxEvent.ledOn ::
            ((RxEvent.recvd f1 :: e1) ++ (RxEvent.recvd f2 :: e2) ++ (RxEvent.recvd f3 :: e3))
            ++ [RxEvent.ledOff] ∧
      countRecvd ((drainStep [f1, f2, f3] d).2) = 3 ∧
      (∀ e ∈ e1 ++ e2 ++ e3,
        isRecvd e = false ∧ e ≠ RxEvent.ledOn ∧ e ≠ RxEvent.ledOff) := by
  refine ⟨(processFrame f1 d).2, (processFrame f2 (processFrame f1 d).1).2,
    (processFrame f3 (processFrame f2 (processFrame f1 d).1).1).2, ?_, ?_, ?_⟩
  · simp [drainStep, drainFrames]
  · simp [drainStep, drainFrames, countRecvd, List.filter_append,
      filter_isRecvd_processFrame, isRecvd]
  · intro e he
    rcases List.mem_append.mp he with h12 | h3
    · rcases List.mem_append.mp h12 with h1 | h2
      · exact processFrame_no_led_no_recv f1 d e h1
      · exact processFrame_no_led_no_recv f2 _ e h2
    · exact processFrame_no_led_no_recv f3 _ e h3

/-- C8: with the durable log holding exactly the lines `"0,-50"` then
`"1,-55"`, the transmission pass (TX.py lines 120-135) sends
`encode {0,-50}` then `encode {1,-55}` in that order with nothing dropped
or reordered, and a receiver draining those two frames in that order
(RX.py lines 99-110) updates the display to -50 and then overwrites it
with -55 — last-write-wins, ending at -55. -/
theorem end_to_end_scenario :
    transmitir_archivo [['0', ',', '-', '5', '0'], ['1', ',', '-', '5', '5']]
      = [TxEvent.sent (encode ⟨0, -50⟩), TxEvent.sent (encode ⟨1, -55⟩)] ∧
    (drainFrames [encode ⟨0, -50⟩, encode ⟨1, -55⟩] none).2.filter isShown
      = [RxEvent.shown (-50), RxEvent.shown (-55)] ∧
    (drainFrames [encode ⟨0, -50⟩, encode ⟨1, -55⟩] none).1 = some (-55) := by
  refine ⟨?_, ?_, ?_⟩ <;> decide

/-- C9 counterexample: a received frame whose length is not 8 bytes is an
error the receiver handles (it is dropped by the guard at RX.py line 101),
yet its handling emits no event at all — no diagnostic message — so this
error is dropped silently, contradicting "no error is dropped silently". -/
theorem wrong_size_frame_dropped_silently :
    processFrame [0, 0, 0, 0] none = (none, []) :=
  rfl

/-- C9 (amended): a two-field log line with a failed integer parse is
handled with the printed warning of TX.py line 137, but two handled error
classes are silent: a log line whose field count is not two is skipped
with no output (TX.py line 125 has no else branch), and a received frame
whose length is not 8 bytes is dropped with no output (RX.py line 101 has
no else branch). -/
theorem error_diagnostics (line bad a b : List Char) (buf : List Nat) (d : Option Int)
    (hsplit : splitOnComma line = [a, b])
    (hfail : pyIntParse a = none ∨ pyIntParse b = none)
    (hcount : (splitOnComma bad).length ≠ 2)
    (hsize : buf.length ≠ 8) :
    processLine line = [TxEvent.warned line] ∧
    processLine bad = [] ∧
    processFrame buf d = (d, []) := by
  refine ⟨processLine_two_field_fail line a b hsplit hfail,
    processLine_bad_field_count bad hcount, ?_⟩
  unfold processFrame
  rw [if_neg hsize]

theorem error_diagnostics_witness :
    (splitOnComma ['x', ',', '9'] = [['x'], ['9']] ∧
      pyIntParse ['x'] = none ∧
      (splitOnComma ['7']).length ≠ 2 ∧
      ([0, 0] : List Nat).length ≠ 8) ∧
    (processLine ['x', ',', '9'] = [TxEvent.warned ['x', ',', '9']] ∧
      processLine ['7'] = [] ∧
      processFrame [0, 0] none = (none, [])) :=
  ⟨⟨by decide, by decide, by decide, by decide⟩,
    error_diagnostics ['x', ',', '9'] ['7'] ['x'] ['9'] [0, 0] none
      (by decide) (Or.inl (by decide)) (by decide) (by decide)⟩
